import Mathlib

/-!
Verification of the lerobot teleoperation/recording scripts.

The development shallowly embeds the core data model and operations of the
repository: the persisted recording record built by `save_recording`
(`record_motion.py`, `record_with_teleop.py`), the wrist-roll filter pipeline
(`lerobot/teleoperate_filtered.py`), the elbow-linked adaptive filter
(`lerobot/teleoperate_elbow_filter.py`), recording validation and replay
drivers (`replay_motion.py`, `replay_all.py`), and the custom filename
ordering (`replay_all.py`, `select_and_replay.py`).

Machine floats are modelled as exact rationals; `numpy.sqrt` (used only by the
adaptive standard deviation) is abstracted as a function parameter `sqrtFn`.
Python dicts are modelled as insertion-ordered association lists.
-/

/-- An axis identifier, e.g. `wrist_roll.pos` (a Python string). -/
abbrev AxisName := List Char

/-- An action frame: insertion-ordered mapping from axis name to position. -/
abbrev AxisFrame := List (AxisName × ℚ)

/-- Dict lookup: value of the first binding of `k`, if any. -/
def lookupAxis : AxisFrame → AxisName → Option ℚ
  | [], _ => Option.none
  | (k', v) :: rest, k => if k' = k then Option.some v else lookupAxis rest k

/-- Dict assignment `f[k] = v`: replaces the first binding of `k`
(appends when absent, as a Python dict would insert). -/
def setAxis : AxisFrame → AxisName → ℚ → AxisFrame
  | [], k, v => [(k, v)]
  | (k', v') :: rest, k, v =>
      if k' = k then (k', v) :: rest else (k', v') :: setAxis rest k v

/-- The ordered key list of a frame (Python `dict.keys()`). -/
def axisKeys (f : AxisFrame) : List AxisName :=
  f.map Prod.fst

/-- Arithmetic mean of a list (Python `sum(l) / len(l)`). -/
def listMean (l : List ℚ) : ℚ :=
  l.sum / (l.length : ℚ)

def wrist_roll_key : AxisName := "wrist_roll.pos".toList

def gripper_key : AxisName := "gripper.pos".toList

def elbow_key : AxisName := "elbow_flex.pos".toList

/-! ### Wrist-roll filter (`lerobot/teleoperate_filtered.py`) -/

/-- The `FilterType` enum of `teleoperate_filtered.py`. -/
inductive FilterType where
  | none
  | deadzone
  | moving_average
  | gripper_linked
  | combined
deriving DecidableEq

/-- The filter-relevant fields of `TeleoperateFilteredConfig`. -/
structure TeleoperateFilteredConfig where
  filter_type : FilterType
  deadzone_threshold : ℚ
  moving_average_window : ℕ
  gripper_change_threshold : ℚ

/-- Mutable state of `WristRollFilter`. -/
structure WristRollFilterState where
  wrist_roll_history : List ℚ
  prev_gripper_value : Option ℚ
  prev_wrist_roll_value : Option ℚ
deriving DecidableEq

/-- The initial `WristRollFilter` state set up in `WristRollFilter.__init__`. -/
def initWristState : WristRollFilterState :=
  { wrist_roll_history := []
    prev_gripper_value := Option.none
    prev_wrist_roll_value := Option.none }

/-- Push a value onto the moving-average FIFO, evicting the oldest entry when
the window is exceeded (`history.append(v); if len > window: pop(0)`). -/
def ma_push (window : ℕ) (h : List ℚ) (v : ℚ) : List ℚ :=
  let h1 := h ++ [v]
  if window < h1.length then h1.tail else h1

/-- `WristRollFilter.apply_filter`, translated line by line.  Returns the
filtered action together with the updated filter state. -/
def apply_filter (cfg : TeleoperateFilteredConfig) (st : WristRollFilterState)
    (action : AxisFrame) : AxisFrame × WristRollFilterState :=
  match lookupAxis action wrist_roll_key with
  | Option.none => (action, st)
  | Option.some original_value =>
    if cfg.filter_type = FilterType.none then (action, st)
    else
      -- deadzone stage
      let fv1 :=
        if (cfg.filter_type = FilterType.deadzone ∨
            cfg.filter_type = FilterType.combined) ∧
            |original_value| < cfg.deadzone_threshold then 0 else original_value
      -- moving-average stage
      let step2 :=
        if cfg.filter_type = FilterType.moving_average ∨
            cfg.filter_type = FilterType.combined then
          let h2 := ma_push cfg.moving_average_window st.wrist_roll_history fv1
          (listMean h2, h2)
        else (fv1, st.wrist_roll_history)
      let fv2 := step2.1
      let hist := step2.2
      -- gripper-linked stage
      let step3 :=
        if cfg.filter_type = FilterType.gripper_linked ∨
            cfg.filter_type = FilterType.combined then
          match lookupAxis action gripper_key with
          | Option.some current_gripper_value =>
            let fv3 :=
              match st.prev_gripper_value, st.prev_wrist_roll_value with
              | Option.some pg, Option.some pw =>
                  if |current_gripper_value - pg| > cfg.gripper_change_threshold
                  then pw else fv2
              | _, _ => fv2
            (fv3, Option.some current_gripper_value)
          | Option.none => (fv2, st.prev_gripper_value)
        else (fv2, st.prev_gripper_value)
      let fv3 := step3.1
      (setAxis action wrist_roll_key fv3,
       { wrist_roll_history := hist
         prev_gripper_value := step3.2
         prev_wrist_roll_value := Option.some fv3 })

/-- Run `apply_filter` over a sequence of frames, collecting the outputs
(the frames sent to the robot) and the final state. -/
def run_wrist_filter (cfg : TeleoperateFilteredConfig)
    (st : WristRollFilterState) : List AxisFrame → List AxisFrame × WristRollFilterState
  | [] => ([], st)
  | a :: rest =>
    let p := apply_filter cfg st a
    let r := run_wrist_filter cfg p.2 rest
    (p.1 :: r.1, r.2)

/-! ### Elbow-linked adaptive filter (`lerobot/teleoperate_elbow_filter.py`) -/

/-- Population variance, `mean((x - mean l)^2)` (as `numpy.std` squares). -/
def listVariance (l : List ℚ) : ℚ :=
  listMean (l.map fun x => (x - listMean l) ^ 2)

/-- Standard deviation of a list.  `numpy.std` takes a square root, which has
no exact rational counterpart; the root extraction is abstracted as the
parameter `sqrtFn`. -/
def listStd (sqrtFn : ℚ → ℚ) (l : List ℚ) : ℚ :=
  sqrtFn (listVariance l)

/-- The filter-relevant fields of `TeleoperateElbowFilterConfig`.
The initial `elbow_threshold` lives in the mutable state below. -/
structure TeleoperateElbowFilterConfig where
  wrist_deadzone : ℚ
  filter_strength : ℚ
  adaptive_threshold : Bool

/-- Mutable state of `ElbowFlexFilter`. -/
structure ElbowFlexFilterState where
  elbow_threshold : ℚ
  prev_elbow_value : Option ℚ
  prev_wrist_value : Option ℚ
  elbow_changes_history : List ℚ
  total_frames : ℕ
  filtered_frames : ℕ
deriving DecidableEq

/-- `self.max_history_size = 100` in `ElbowFlexFilter.__init__`. -/
def max_history_size : ℕ := 100

/-- `ElbowFlexFilter.update_adaptive_threshold`, translated line by line. -/
def update_adaptive_threshold (sqrtFn : ℚ → ℚ) (adaptive : Bool)
    (st : ElbowFlexFilterState) (elbow_change : ℚ) : ElbowFlexFilterState :=
  if ¬ adaptive then st
  else
    let h2 := ma_push max_history_size st.elbow_changes_history elbow_change
    if 10 ≤ h2.length then
      let new_threshold := listMean h2 + (3 / 2) * listStd sqrtFn h2
      { st with
          elbow_changes_history := h2
          elbow_threshold :=
            (9 / 10) * st.elbow_threshold + (1 / 10) * new_threshold }
    else { st with elbow_changes_history := h2 }

/-- `ElbowFlexFilter.apply_filter`, translated line by line.  Returns the
filtered action together with the updated filter state. -/
def elbow_apply_filter (sqrtFn : ℚ → ℚ) (cfg : TeleoperateElbowFilterConfig)
    (st : ElbowFlexFilterState) (action : AxisFrame) :
    AxisFrame × ElbowFlexFilterState :=
  match lookupAxis action elbow_key, lookupAxis action wrist_roll_key with
  | Option.some current_elbow, Option.some current_wrist =>
    let st0 := { st with total_frames := st.total_frames + 1 }
    match st0.prev_elbow_value with
    | Option.none =>
      (action, { st0 with
                  prev_elbow_value := Option.some current_elbow
                  prev_wrist_value := Option.some current_wrist })
    | Option.some prev_elbow =>
      let elbow_change := |current_elbow - prev_elbow|
      let st1 := update_adaptive_threshold sqrtFn cfg.adaptive_threshold st0
        elbow_change
      if elbow_change > st1.elbow_threshold then
        -- should_filter: blend toward the previous output
        let filtered_wrist :=
          match st1.prev_wrist_value with
          | Option.some pw =>
              (1 - cfg.filter_strength) * current_wrist +
                cfg.filter_strength * pw
          | Option.none => current_wrist
        let action2 := setAxis action wrist_roll_key filtered_wrist
        (action2, { st1 with
                     filtered_frames := st1.filtered_frames + 1
                     prev_elbow_value := Option.some current_elbow
                     prev_wrist_value := lookupAxis action2 wrist_roll_key })
      else if |current_wrist| < cfg.wrist_deadzone then
        let action2 := setAxis action wrist_roll_key 0
        (action2, { st1 with
                     prev_elbow_value := Option.some current_elbow
                     prev_wrist_value := lookupAxis action2 wrist_roll_key })
      else
        (action, { st1 with
                    prev_elbow_value := Option.some current_elbow
                    prev_wrist_value := lookupAxis action wrist_roll_key })
  | _, _ => (action, st)

/-- Run `elbow_apply_filter` over a sequence of frames. -/
def run_elbow_filter (sqrtFn : ℚ → ℚ) (cfg : TeleoperateElbowFilterConfig)
    (st : ElbowFlexFilterState) :
    List AxisFrame → List AxisFrame × ElbowFlexFilterState
  | [] => ([], st)
  | a :: rest =>
    let p := elbow_apply_filter sqrtFn cfg st a
    let r := run_elbow_filter sqrtFn cfg p.2 rest
    (p.1 :: r.1, r.2)

/-! ### Motion recorder (`record_motion.py` / `record_with_teleop.py`) -/

/-- One captured frame: `{"timestamp": t, "action": a}`. -/
structure TimedFrame where
  timestamp : ℚ
  action : AxisFrame
deriving DecidableEq

/-- The persisted recording record assembled by `save_recording`. -/
structure RecordingData where
  fps : ℕ
  frames : List TimedFrame
  num_frames : ℕ
  duration : ℚ
  motor_names : List AxisName
deriving DecidableEq

/-- `save_recording` (identical in `record_motion.py` and
`record_with_teleop.py`): builds the persisted dict from the captured
frame list. -/
def save_recording (frames : List TimedFrame) (fps : ℕ) : RecordingData :=
  { fps := fps
    frames := frames
    num_frames := frames.length
    duration :=
      match frames.getLast? with
      | Option.some fr => fr.timestamp
      | Option.none => 0
    motor_names :=
      match frames with
      | fr :: _ => axisKeys fr.action
      | [] => [] }

/-! ### Recording session driver (`record_motion.py` / `record_with_teleop.py`
`main`): the recording loop runs until an exception (user interrupt or error)
unwinds it; the `finally` block disconnects and then persists the captured
frames, or informs the caller when none were captured. -/

/-- Observable events of the `finally` block of `main`. -/
inductive SessionEvent where
  | disconnect
  | saved (r : RecordingData)
  | no_frames_message
deriving DecidableEq

/-- How the recording loop was exited: user interrupt (`KeyboardInterrupt`)
or a mid-loop error, in either case after `k` completed iterations. -/
inductive LoopExit where
  | interrupted (k : ℕ)
  | errored (k : ℕ)
deriving DecidableEq

/-- Number of loop iterations completed before the exit. -/
def LoopExit.tick : LoopExit → ℕ
  | LoopExit.interrupted k => k
  | LoopExit.errored k => k

/-- The `finally` block of `main`: disconnect (when connected), then
`save_recording` if any frames were captured, else the
"No frames recorded." message. -/
def session_finalize (connected : Bool) (frames : List TimedFrame)
    (fps : ℕ) : List SessionEvent :=
  (if connected then [SessionEvent.disconnect] else []) ++
    (match frames with
     | [] => [SessionEvent.no_frames_message]
     | _ => [SessionEvent.saved (save_recording frames fps)])

/-- A whole recording session: the loop appends one timed frame from the
input stream per iteration until the exit at tick `ex.tick`, after which the
`finally` block runs on the frames captured so far. -/
def run_recording_session (stream : List TimedFrame) (fps : ℕ)
    (connected : Bool) (ex : LoopExit) : List SessionEvent :=
  session_finalize connected (stream.take ex.tick) fps

/-! ### Recording validation and replay (`replay_motion.py` / `replay_all.py`).
Only key presence matters to validation, so a loaded pickle record is
modelled by its key list. -/

def fps_key : AxisName := "fps".toList

def frames_key : AxisName := "frames".toList

def num_frames_key : AxisName := "num_frames".toList

/-- `required_keys = ["fps", "frames", "num_frames"]`. -/
def required_keys : List AxisName := [fps_key, frames_key, num_frames_key]

/-- The validation loop shared by `replay_motion.load_recording` and
`replay_all.load_recording`: fail on the first required key that is absent
(`InvalidRecordingFormat`, a `ValueError` in the code). -/
def validate_recording (ks : List AxisName) : Except AxisName Unit :=
  required_keys.foldr
    (fun key acc => if key ∈ ks then acc else Except.error key)
    (Except.ok ())

/-- `replay_motion.main`: a failed load aborts the whole replay (`return`
before any device connection); a successful load replays the file. -/
def replay_single (ks : List AxisName) : Option (List AxisName) :=
  match validate_recording ks with
  | Except.ok _ => Option.some ks
  | Except.error _ => Option.none

/-- `replay_all.load_recording` returns `None` instead of raising. -/
def load_recording_batch (ks : List AxisName) : Option (List AxisName) :=
  match validate_recording ks with
  | Except.ok _ => Option.some ks
  | Except.error _ => Option.none

/-- The file loop of `replay_all.main`: each file is loaded; on `None` the
file is skipped (`continue`) and the loop proceeds with the next file.
Returns the records actually replayed, in order. -/
def replay_all_files (files : List (List AxisName)) : List (List AxisName) :=
  files.filterMap load_recording_batch

/-! ### Filename ordering (`replay_all.find_pkl_files` /
`select_and_replay.find_pkl_files`) -/

/-- Digits-to-number, `int(...)` on the matched digit group. -/
def natOfDigits (ds : List Char) : ℕ :=
  ds.foldl (fun acc c => 10 * acc + (c.toNat - 48)) 0

/-- `re.match(r'pre(\d+)', name)`: if `name` starts with `pre` followed by at
least one digit, the numeric value of the (greedy) digit group. -/
def matchFamily (pre : AxisName) (name : AxisName) : Option ℕ :=
  if name.take pre.length = pre then
    let ds := (name.drop pre.length).takeWhile Char.isDigit
    match ds with
    | [] => Option.none
    | _ => Option.some (natOfDigits ds)
  else Option.none

def conf_family : AxisName := "conf".toList

def anx_family : AxisName := "anx".toList

/-- `sort_key`: `(0, num)` for `conf<digits>`, `(1, num)` for `anx<digits>`,
`(2, filename)` otherwise.  The heterogeneous Python tuples are modelled as a
lexicographic triple, padding with `0`/`[]` for the unused component. -/
def sort_key (name : AxisName) : Lex (ℕ × Lex (ℕ × AxisName)) :=
  match matchFamily conf_family name with
  | Option.some num => toLex (0, toLex (num, []))
  | Option.none =>
    match matchFamily anx_family name with
    | Option.some num => toLex (1, toLex (num, []))
    | Option.none => toLex (2, toLex (0, name))

/-- The comparison induced by `sort_key` (Python tuple comparison; strings
compare lexicographically by code point, as `List Char` does). -/
def file_le (a b : AxisName) : Prop :=
  sort_key a ≤ sort_key b

instance : DecidableRel file_le := fun a b =>
  inferInstanceAs (Decidable (sort_key a ≤ sort_key b))

instance : IsTotal AxisName file_le :=
  ⟨fun a b => le_total (sort_key a) (sort_key b)⟩

instance : IsTrans AxisName file_le :=
  ⟨fun _ _ _ hab hbc => le_trans hab hbc⟩

/-- `pkl_files.sort(key=sort_key)` of `find_pkl_files`, modelled as a
comparison sort under the key order (Python's sort is a stable comparison
sort; no claim depends on the order of equal keys). -/
def find_pkl_files (names : List AxisName) : List AxisName :=
  List.insertionSort file_le names

/-! ### Observation helpers and concrete frames used in the theorems -/

/-- The wrist-roll value carried by a frame. -/
def wrist_output (a : AxisFrame) : Option ℚ :=
  lookupAxis a wrist_roll_key

/-- The wrist-roll value of the last frame of an output sequence. -/
def last_wrist_output (outs : List AxisFrame) : Option ℚ :=
  outs.getLast?.bind (fun a => wrist_output a)

/-- A frame carrying only the wrist-roll axis. -/
def mkWristFrame (w : ℚ) : AxisFrame := [(wrist_roll_key, w)]

/-- A frame carrying the gripper and wrist-roll axes. -/
def gwFrame (g w : ℚ) : AxisFrame := [(gripper_key, g), (wrist_roll_key, w)]

/-- A frame carrying the elbow-flex and wrist-roll axes. -/
def ewFrame (e w : ℚ) : AxisFrame := [(elbow_key, e), (wrist_roll_key, w)]

/-- Iterated `ma_push`: the FIFO contents after feeding a list of values. -/
def ma_feed (window : ℕ) (h : List ℚ) (xs : List ℚ) : List ℚ :=
  xs.foldl (ma_push window) h

/-! ### Basic frame lemmas -/

theorem lookupAxis_setAxis_self (f : AxisFrame) (k : AxisName) (v : ℚ) :
    lookupAxis (setAxis f k v) k = Option.some v := by
  induction f with
  | nil => simp [setAxis, lookupAxis]
  | cons p rest ih =>
    obtain ⟨k', v'⟩ := p
    by_cases h : k' = k
    · subst h
      simp [setAxis, lookupAxis]
    · simpa [setAxis, lookupAxis, if_neg h] using ih

theorem lookupAxis_setAxis_ne (f : AxisFrame) (k k' : AxisName) (v : ℚ)
    (hne : k' ≠ k) : lookupAxis (setAxis f k v) k' = lookupAxis f k' := by
  induction f with
  | nil => simp [setAxis, lookupAxis, Ne.symm hne]
  | cons p rest ih =>
    obtain ⟨k0, v0⟩ := p
    by_cases h : k0 = k
    · subst h
      simp [setAxis, lookupAxis, Ne.symm hne]
    · by_cases h2 : k0 = k'
      · subst h2
        simp [setAxis, if_neg h, lookupAxis]
      · simpa [setAxis, if_neg h, lookupAxis, h2] using ih

theorem axisKeys_setAxis_mem (f : AxisFrame) (k : AxisName) (v v0 : ℚ)
    (hmem : lookupAxis f k = Option.some v0) :
    axisKeys (setAxis f k v) = axisKeys f := by
  induction f with
  | nil => simp [lookupAxis] at hmem
  | cons p rest ih =>
    obtain ⟨k', v'⟩ := p
    by_cases h : k' = k
    · subst h
      simp [setAxis, axisKeys]
    · simp only [setAxis, if_neg h, axisKeys, List.map_cons, List.cons.injEq,
        true_and]
      have hmem' : lookupAxis rest k = Option.some v0 := by
        simpa [lookupAxis, if_neg h] using hmem
      simpa [axisKeys] using ih hmem'

theorem gripper_key_ne_wrist : gripper_key ≠ wrist_roll_key := by decide

theorem elbow_key_ne_wrist : elbow_key ≠ wrist_roll_key := by decide

@[simp] theorem lookup_gwFrame_wrist (g w : ℚ) :
    lookupAxis (gwFrame g w) wrist_roll_key = Option.some w := by
  simp [gwFrame, lookupAxis, gripper_key_ne_wrist]

@[simp] theorem lookup_gwFrame_gripper (g w : ℚ) :
    lookupAxis (gwFrame g w) gripper_key = Option.some g := by
  simp [gwFrame, lookupAxis]

@[simp] theorem lookup_ewFrame_wrist (e w : ℚ) :
    lookupAxis (ewFrame e w) wrist_roll_key = Option.some w := by
  simp [ewFrame, lookupAxis, elbow_key_ne_wrist]

@[simp] theorem lookup_ewFrame_elbow (e w : ℚ) :
    lookupAxis (ewFrame e w) elbow_key = Option.some e := by
  simp [ewFrame, lookupAxis]

@[simp] theorem lookup_mkWristFrame (w : ℚ) :
    lookupAxis (mkWristFrame w) wrist_roll_key = Option.some w := by
  simp [mkWristFrame, lookupAxis]

@[simp] theorem setAxis_gwFrame (g w v : ℚ) :
    setAxis (gwFrame g w) wrist_roll_key v = gwFrame g v := by
  simp [gwFrame, setAxis, gripper_key_ne_wrist]

@[simp] theorem setAxis_ewFrame (e w v : ℚ) :
    setAxis (ewFrame e w) wrist_roll_key v = ewFrame e v := by
  simp [ewFrame, setAxis, elbow_key_ne_wrist]

@[simp] theorem setAxis_mkWristFrame (w v : ℚ) :
    setAxis (mkWristFrame w) wrist_roll_key v = mkWristFrame v := by
  simp [mkWristFrame, setAxis]

/-! ### C1: the persisted recording invariant -/

/-- C1: for every persisted `Recording` built by `save_recording` from a
captured frame sequence, the stored `num_frames` equals the length of the
stored frame list, the stored `duration` equals the timestamp of the last
frame (`0` for an empty capture), and the stored `motor_names` are the keys
of the first frame's action map (empty list for an empty capture). -/
theorem recording_invariant (frames : List TimedFrame) (fps : ℕ) :
    (save_recording frames fps).num_frames =
      (save_recording frames fps).frames.length ∧
    (save_recording frames fps).duration =
      ((frames.map TimedFrame.timestamp).getLastD 0) ∧
    (save_recording frames fps).motor_names =
      ((frames.map fun fr => axisKeys fr.action).headD []) := by
  refine ⟨rfl, ?_, ?_⟩
  · cases h : frames.getLast? with
    | none =>
      have : frames = [] := by
        cases frames with
        | nil => rfl
        | cons a l => simp [List.getLast?_concat] at h
      subst this
      simp [save_recording]
    | some fr =>
      simp [save_recording, h, List.getLastD_eq_getLast?, List.getLast?_map]
  · cases frames with
    | nil => simp [save_recording]
    | cons fr rest => simp [save_recording]

/-! ### C6: the deadzone stage -/

/-- C6: with the deadzone filter, a wrist-roll value whose absolute value is
strictly below the threshold is replaced by exactly `0.0`, and any other
value passes through unchanged. -/
theorem deadzone_semantics (dz : ℚ) (win : ℕ) (gt : ℚ)
    (st : WristRollFilterState) (action : AxisFrame) (x : ℚ)
    (hmem : lookupAxis action wrist_roll_key = Option.some x) :
    wrist_output
        (apply_filter ⟨FilterType.deadzone, dz, win, gt⟩ st action).1 =
      Option.some (if |x| < dz then 0 else x) := by
  simp only [apply_filter, hmem]
  by_cases h : |x| < dz <;>
    simp [wrist_output, h, lookupAxis_setAxis_self]

/-- Witness for C6 at concrete inputs: threshold `5.0`, inputs `3.2` and
`7.0` (end-to-end scenario B of the specification). -/
theorem deadzone_semantics_witness :
    wrist_output
        (apply_filter ⟨FilterType.deadzone, 5, 10, 5⟩ initWristState
          (mkWristFrame (16 / 5))).1 = Option.some 0 ∧
    wrist_output
        (apply_filter ⟨FilterType.deadzone, 5, 10, 5⟩ initWristState
          (mkWristFrame 7)).1 = Option.some 7 := by
  constructor
  · have h := deadzone_semantics 5 10 5 initWristState (mkWristFrame (16 / 5))
      (16 / 5) (lookup_mkWristFrame (16 / 5))
    have habs : |(16 / 5 : ℚ)| = 16 / 5 := abs_of_nonneg (by norm_num)
    rw [h]
    norm_num [habs]
  · have h := deadzone_semantics 5 10 5 initWristState (mkWristFrame 7)
      7 (lookup_mkWristFrame 7)
    have habs : |(7 : ℚ)| = 7 := abs_of_nonneg (by norm_num)
    rw [h]
    norm_num [habs]


/-! ### C10: the filters touch only the wrist-roll entry -/

theorem apply_filter_skips_missing (cfg : TeleoperateFilteredConfig)
    (st : WristRollFilterState) (a : AxisFrame)
    (hw : lookupAxis a wrist_roll_key = Option.none) :
    apply_filter cfg st a = (a, st) := by
  simp [apply_filter, hw]

theorem apply_filter_fst_setAxis (cfg : TeleoperateFilteredConfig)
    (st : WristRollFilterState) (a : AxisFrame) (v : ℚ)
    (hw : lookupAxis a wrist_roll_key = Option.some v)
    (hty : ¬ cfg.filter_type = FilterType.none) :
    ∃ fv, (apply_filter cfg st a).1 = setAxis a wrist_roll_key fv := by
  simp only [apply_filter, hw, if_neg hty]
  exact ⟨_, rfl⟩

theorem elbow_apply_skips_missing (sqrtFn : ℚ → ℚ)
    (cfg : TeleoperateElbowFilterConfig) (st : ElbowFlexFilterState)
    (a : AxisFrame)
    (h : lookupAxis a elbow_key = Option.none ∨
      lookupAxis a wrist_roll_key = Option.none) :
    elbow_apply_filter sqrtFn cfg st a = (a, st) := by
  rcases h with h | h
  · simp [elbow_apply_filter, h]
  · cases he : lookupAxis a elbow_key <;> simp [elbow_apply_filter, he, h]

theorem elbow_apply_fst_shape (sqrtFn : ℚ → ℚ)
    (cfg : TeleoperateElbowFilterConfig) (st : ElbowFlexFilterState)
    (a : AxisFrame) (e w : ℚ)
    (he : lookupAxis a elbow_key = Option.some e)
    (hw : lookupAxis a wrist_roll_key = Option.some w) :
    (elbow_apply_filter sqrtFn cfg st a).1 = a ∨
      ∃ fv, (elbow_apply_filter sqrtFn cfg st a).1 =
        setAxis a wrist_roll_key fv := by
  simp only [elbow_apply_filter, he, hw]
  cases hpe : st.prev_elbow_value with
  | none => left; simp [hpe]
  | some pe =>
    simp only [hpe]
    split_ifs with h1 h2
    · right; exact ⟨_, rfl⟩
    · right; exact ⟨_, rfl⟩
    · left; rfl

/-- C10: both filter pipelines change at most the `wrist_roll.pos` entry of a
frame: the key set is unchanged and every other key keeps its value; when the
watched key `wrist_roll.pos` (or, for the elbow filter, additionally
`elbow_flex.pos`) is absent, the frame is returned entirely unchanged and the
filter state is not mutated. -/
theorem filters_touch_only_wrist :
    (∀ (cfg : TeleoperateFilteredConfig) (st : WristRollFilterState)
        (a : AxisFrame),
      axisKeys (apply_filter cfg st a).1 = axisKeys a ∧
      (∀ k, k ≠ wrist_roll_key →
        lookupAxis (apply_filter cfg st a).1 k = lookupAxis a k) ∧
      (lookupAxis a wrist_roll_key = Option.none →
        apply_filter cfg st a = (a, st))) ∧
    (∀ (sqrtFn : ℚ → ℚ) (cfg : TeleoperateElbowFilterConfig)
        (st : ElbowFlexFilterState) (a : AxisFrame),
      axisKeys (elbow_apply_filter sqrtFn cfg st a).1 = axisKeys a ∧
      (∀ k, k ≠ wrist_roll_key →
        lookupAxis (elbow_apply_filter sqrtFn cfg st a).1 k =
          lookupAxis a k) ∧
      (lookupAxis a elbow_key = Option.none ∨
          lookupAxis a wrist_roll_key = Option.none →
        elbow_apply_filter sqrtFn cfg st a = (a, st))) := by
  constructor
  · intro cfg st a
    refine ⟨?_, ?_, fun h => apply_filter_skips_missing cfg st a h⟩
    · cases hw : lookupAxis a wrist_roll_key with
      | none => rw [apply_filter_skips_missing cfg st a hw]
      | some v =>
        by_cases hty : cfg.filter_type = FilterType.none
        · simp [apply_filter, hw, hty]
        · obtain ⟨fv, hfv⟩ := apply_filter_fst_setAxis cfg st a v hw hty
          rw [hfv]
          exact axisKeys_setAxis_mem a wrist_roll_key fv v hw
    · intro k hk
      cases hw : lookupAxis a wrist_roll_key with
      | none => rw [apply_filter_skips_missing cfg st a hw]
      | some v =>
        by_cases hty : cfg.filter_type = FilterType.none
        · simp [apply_filter, hw, hty]
        · obtain ⟨fv, hfv⟩ := apply_filter_fst_setAxis cfg st a v hw hty
          rw [hfv]
          exact lookupAxis_setAxis_ne a wrist_roll_key k fv hk
  · intro sqrtFn cfg st a
    refine ⟨?_, ?_, fun h => elbow_apply_skips_missing sqrtFn cfg st a h⟩
    · cases he : lookupAxis a elbow_key with
      | none => rw [elbow_apply_skips_missing sqrtFn cfg st a (Or.inl he)]
      | some e =>
        cases hw : lookupAxis a wrist_roll_key with
        | none => rw [elbow_apply_skips_missing sqrtFn cfg st a (Or.inr hw)]
        | some w =>
          rcases elbow_apply_fst_shape sqrtFn cfg st a e w he hw with
            hsh | ⟨fv, hfv⟩
          · rw [hsh]
          · rw [hfv]
            exact axisKeys_setAxis_mem a wrist_roll_key fv w hw
    · intro k hk
      cases he : lookupAxis a elbow_key with
      | none => rw [elbow_apply_skips_missing sqrtFn cfg st a (Or.inl he)]
      | some e =>
        cases hw : lookupAxis a wrist_roll_key with
        | none => rw [elbow_apply_skips_missing sqrtFn cfg st a (Or.inr hw)]
        | some w =>
          rcases elbow_apply_fst_shape sqrtFn cfg st a e w he hw with
            hsh | ⟨fv, hfv⟩
          · rw [hsh]
          · rw [hfv]
            exact lookupAxis_setAxis_ne a wrist_roll_key k fv hk

/-- Witness for C10: the elbow filter leaves a frame without the watched keys
untouched, and the deadzone filter preserves the gripper entry of a frame. -/
theorem filters_touch_only_wrist_witness :
    elbow_apply_filter (fun q => q) ⟨5, 4 / 5, true⟩
        ⟨2, Option.none, Option.none, [], 0, 0⟩ [(gripper_key, 3)] =
      ([(gripper_key, 3)], ⟨2, Option.none, Option.none, [], 0, 0⟩) ∧
    lookupAxis
        (apply_filter ⟨FilterType.deadzone, 20, 10, 5⟩ initWristState
          (gwFrame 3 30)).1 gripper_key = Option.some 3 := by
  constructor
  · exact (filters_touch_only_wrist.2 (fun q => q) ⟨5, 4 / 5, true⟩
      ⟨2, Option.none, Option.none, [], 0, 0⟩ [(gripper_key, 3)]).2.2
      (Or.inl (by decide))
  · exact ((filters_touch_only_wrist.1 ⟨FilterType.deadzone, 20, 10, 5⟩
      initWristState (gwFrame 3 30)).2.1 gripper_key gripper_key_ne_wrist).trans
      (lookup_gwFrame_gripper 3 30)

/-! ### C7: recording validation and its replay consequences -/

/-- C7: loading fails with `InvalidRecordingFormat` exactly when one of the
required fields `fps`, `frames`, `num_frames` is absent from the loaded
record; a failed load aborts single-file replay, while batch replay skips the
offending file and continues with the remaining files. -/
theorem invalid_recording_handling :
    (∀ ks : List AxisName,
      (∃ k, validate_recording ks = Except.error k) ↔
        (fps_key ∉ ks ∨ frames_key ∉ ks ∨ num_frames_key ∉ ks)) ∧
    (∀ ks : List AxisName,
      replay_single ks = Option.none ↔
        ∃ k, validate_recording ks = Except.error k) ∧
    (∀ (xs ys : List (List AxisName)) (bad : List AxisName),
      (∃ k, validate_recording bad = Except.error k) →
      replay_all_files (xs ++ bad :: ys) =
        replay_all_files xs ++ replay_all_files ys) := by
  refine ⟨?_, ?_, ?_⟩
  · intro ks
    by_cases h1 : fps_key ∈ ks <;> by_cases h2 : frames_key ∈ ks <;>
      by_cases h3 : num_frames_key ∈ ks <;>
      simp [validate_recording, required_keys, h1, h2, h3]
  · intro ks
    cases hv : validate_recording ks with
    | ok u =>
      simp [replay_single, hv]
    | error k =>
      simp [replay_single, hv]
  · rintro xs ys bad ⟨k, hk⟩
    simp [replay_all_files, List.filterMap_append, load_recording_batch, hk]

/-- Witness for C7: a record missing `num_frames` aborts single replay, and a
batch containing it replays only the two valid neighbours. -/
theorem invalid_recording_handling_witness :
    replay_single [fps_key, frames_key] = Option.none ∧
    replay_all_files
        ([[fps_key, frames_key, num_frames_key]] ++
          [fps_key, frames_key] :: [[fps_key, frames_key, num_frames_key]]) =
      replay_all_files [[fps_key, frames_key, num_frames_key]] ++
        replay_all_files [[fps_key, frames_key, num_frames_key]] := by
  constructor
  · exact (invalid_recording_handling.2.1 [fps_key, frames_key]).2
      ⟨num_frames_key, rfl⟩
  · exact invalid_recording_handling.2.2 _ _ [fps_key, frames_key]
      ⟨num_frames_key, rfl⟩

/-! ### C8: replay filename ordering -/

/-- C8: the replay selection order sorts `conf<n>` names first by their
numeric suffix, then `anx<n>` names by their numeric suffix, then all other
names in plain lexical order: `find_pkl_files` returns a permutation of its
input sorted under exactly that key order, and the concrete file set
`conf2, anx1, conf1, zeta, anx3` is ordered
`conf1, conf2, anx1, anx3, zeta` (end-to-end scenario D). -/
theorem replay_file_ordering :
    (∀ l : List AxisName, (find_pkl_files l).Perm l) ∧
    (∀ l : List AxisName, List.Sorted file_le (find_pkl_files l)) ∧
    (∀ a b na nb, matchFamily conf_family a = Option.some na →
      matchFamily conf_family b = Option.none →
      matchFamily anx_family b = Option.some nb → file_le a b) ∧
    (∀ a b na nb, matchFamily conf_family a = Option.some na →
      matchFamily conf_family b = Option.some nb →
      (file_le a b ↔ na ≤ nb)) ∧
    (∀ a b na, matchFamily conf_family a = Option.none →
      matchFamily anx_family a = Option.some na →
      matchFamily conf_family b = Option.none →
      matchFamily anx_family b = Option.none → file_le a b) ∧
    (∀ a b na nb, matchFamily conf_family a = Option.none →
      matchFamily anx_family a = Option.some na →
      matchFamily conf_family b = Option.none →
      matchFamily anx_family b = Option.some nb →
      (file_le a b ↔ na ≤ nb)) ∧
    (∀ a b, matchFamily conf_family a = Option.none →
      matchFamily anx_family a = Option.none →
      matchFamily conf_family b = Option.none →
      matchFamily anx_family b = Option.none → (file_le a b ↔ a ≤ b)) ∧
    find_pkl_files ["conf2".toList, "anx1".toList, "conf1".toList,
        "zeta".toList, "anx3".toList] =
      ["conf1".toList, "conf2".toList, "anx1".toList, "anx3".toList,
        "zeta".toList] := by
  refine ⟨fun l => List.perm_insertionSort file_le l,
    fun l => List.sorted_insertionSort file_le l, ?_, ?_, ?_, ?_, ?_, rfl⟩
  · intro a b na nb hca hcb hab
    simp only [file_le, sort_key, hca, hcb, hab]
    rw [Prod.Lex.le_iff]
    left
    norm_num
  · intro a b na nb hca hcb
    simp only [file_le, sort_key, hca, hcb]
    simp [Prod.Lex.le_iff]
    omega
  · intro a b na hca haa hcb hab
    simp only [file_le, sort_key, hca, haa, hcb, hab]
    rw [Prod.Lex.le_iff]
    left
    norm_num
  · intro a b na nb hca haa hcb hab
    simp only [file_le, sort_key, hca, haa, hcb, hab]
    simp [Prod.Lex.le_iff]
    omega
  · intro a b hca haa hcb hab
    simp only [file_le, sort_key, hca, haa, hcb, hab]
    simp [Prod.Lex.le_iff]

/-- Witness for C8: a `conf` name precedes an `anx` name, and two plain
names compare in plain lexical order. -/
theorem replay_file_ordering_witness :
    file_le "conf9".toList "anx1".toList ∧
    (file_le "zeta".toList "alpha".toList ↔
      "zeta".toList ≤ "alpha".toList) := by
  constructor
  · exact replay_file_ordering.2.2.1 "conf9".toList "anx1".toList 9 1
      rfl rfl rfl
  · exact replay_file_ordering.2.2.2.2.2.2.1 "zeta".toList "alpha".toList
      rfl rfl rfl rfl

/-! ### C9: persistence on every exit path of a recording session -/

/-- C9: on every exit path of a recording session (user interrupt or mid-loop
error after any number of iterations), the finalization path runs after the
device disconnect and persists exactly the frames captured so far whenever at
least one frame was captured; with zero frames captured no recording is
saved and the caller is informed instead. -/
theorem recording_persisted_on_exit
    (stream : List TimedFrame) (fps : ℕ) (connected : Bool) (ex : LoopExit) :
    (stream.take ex.tick ≠ [] →
      run_recording_session stream fps connected ex =
        (if connected then [SessionEvent.disconnect] else []) ++
          [SessionEvent.saved (save_recording (stream.take ex.tick) fps)] ∧
      (save_recording (stream.take ex.tick) fps).frames =
        stream.take ex.tick) ∧
    (stream.take ex.tick = [] →
      run_recording_session stream fps connected ex =
        (if connected then [SessionEvent.disconnect] else []) ++
          [SessionEvent.no_frames_message] ∧
      ∀ r, SessionEvent.saved r ∉
        run_recording_session stream fps connected ex) := by
  constructor
  · intro hne
    cases hf : stream.take ex.tick with
    | nil => exact absurd hf hne
    | cons f rest =>
      constructor
      · simp [run_recording_session, session_finalize, hf]
      · rfl
  · intro he
    constructor
    · simp [run_recording_session, session_finalize, he]
    · intro r
      simp [run_recording_session, session_finalize, he]

/-- Witness for C9: an interrupt after one captured frame persists that
frame; an error before any frame was captured saves nothing and informs the
caller. -/
theorem recording_persisted_on_exit_witness :
    run_recording_session [⟨0, mkWristFrame 1⟩, ⟨1, mkWristFrame 2⟩] 30 true
        (LoopExit.interrupted 1) =
      [SessionEvent.disconnect,
        SessionEvent.saved
          (save_recording
            ([⟨0, mkWristFrame 1⟩, ⟨1, mkWristFrame 2⟩].take
              (LoopExit.interrupted 1).tick) 30)] ∧
    run_recording_session [⟨0, mkWristFrame 1⟩] 30 true (LoopExit.errored 0) =
      [SessionEvent.disconnect, SessionEvent.no_frames_message] := by
  constructor
  · have h := (recording_persisted_on_exit
      [⟨0, mkWristFrame 1⟩, ⟨1, mkWristFrame 2⟩] 30 true
      (LoopExit.interrupted 1)).1 (by simp [LoopExit.tick])
    simpa using h.1
  · have h := (recording_persisted_on_exit [⟨0, mkWristFrame 1⟩] 30 true
      (LoopExit.errored 0)).2 (by simp [LoopExit.tick])
    simpa using h.1

/-! ### C2: the gripper-linked freeze -/

theorem gripper_first_tick (dz : ℚ) (win : ℕ) (thr g w : ℚ)
    (hist : List ℚ) :
    apply_filter ⟨FilterType.gripper_linked, dz, win, thr⟩
        ⟨hist, Option.none, Option.none⟩ (gwFrame g w) =
      (gwFrame g w, ⟨hist, Option.some g, Option.some w⟩) := by
  simp [apply_filter]

theorem gripper_next_tick (dz : ℚ) (win : ℕ) (thr : ℚ) (hist : List ℚ)
    (pg pw g w : ℚ) :
    apply_filter ⟨FilterType.gripper_linked, dz, win, thr⟩
        ⟨hist, Option.some pg, Option.some pw⟩ (gwFrame g w) =
      (gwFrame g (if |g - pg| > thr then pw else w),
        ⟨hist, Option.some g,
          Option.some (if |g - pg| > thr then pw else w)⟩) := by
  by_cases h : |g - pg| > thr <;> simp [apply_filter, h]

/-- C2: the gripper-linked stage passes the wrist value through unchanged on
the first tick while recording the trigger (gripper) value; on every later
tick it freezes the output at the previous tick's output exactly when the
absolute gripper delta exceeds the change threshold and passes the value
through otherwise; on the inputs `(0,10), (8,12), (8,20)` with threshold `5`
the wrist outputs are `10, 10, 20` (end-to-end scenario C). -/
theorem gripper_linked_semantics :
    (∀ (dz : ℚ) (win : ℕ) (thr g w : ℚ) (hist : List ℚ),
      apply_filter ⟨FilterType.gripper_linked, dz, win, thr⟩
          ⟨hist, Option.none, Option.none⟩ (gwFrame g w) =
        (gwFrame g w, ⟨hist, Option.some g, Option.some w⟩)) ∧
    (∀ (dz : ℚ) (win : ℕ) (thr : ℚ) (hist : List ℚ) (pg pw g w : ℚ),
      apply_filter ⟨FilterType.gripper_linked, dz, win, thr⟩
          ⟨hist, Option.some pg, Option.some pw⟩ (gwFrame g w) =
        (gwFrame g (if |g - pg| > thr then pw else w),
          ⟨hist, Option.some g,
            Option.some (if |g - pg| > thr then pw else w)⟩)) ∧
    (run_wrist_filter ⟨FilterType.gripper_linked, 20, 10, 5⟩ initWristState
        [gwFrame 0 10, gwFrame 8 12, gwFrame 8 20]).1.map wrist_output =
      [Option.some 10, Option.some 10, Option.some 20] := by
  refine ⟨gripper_first_tick, gripper_next_tick, ?_⟩
  have h1 := gripper_first_tick 20 10 5 0 10 []
  have h2 := gripper_next_tick 20 10 5 [] 0 10 8 12
  have h3 := gripper_next_tick 20 10 5 [] 8 10 8 20
  have e2 : |(8 : ℚ) - 0| > 5 := by
    rw [show |(8 : ℚ) - 0| = 8 by norm_num]
    norm_num
  have e3 : ¬ (|(8 : ℚ) - 8| > 5) := by
    rw [show |(8 : ℚ) - 8| = 0 by norm_num]
    norm_num
  rw [if_pos e2] at h2
  rw [if_neg e3] at h3
  simp only [run_wrist_filter, initWristState, h1, h2, h3]
  simp [wrist_output]

/-! ### C4: the elbow-linked per-tick decision -/

theorem update_adaptive_preserves (sqrtFn : ℚ → ℚ) (b : Bool)
    (st : ElbowFlexFilterState) (ch : ℚ) :
    (update_adaptive_threshold sqrtFn b st ch).prev_wrist_value =
        st.prev_wrist_value ∧
      (update_adaptive_threshold sqrtFn b st ch).prev_elbow_value =
        st.prev_elbow_value ∧
      (update_adaptive_threshold sqrtFn b st ch).total_frames =
        st.total_frames ∧
      (update_adaptive_threshold sqrtFn b st ch).filtered_frames =
        st.filtered_frames := by
  by_cases hb : b
  · by_cases hlen :
      10 ≤ (ma_push max_history_size st.elbow_changes_history ch).length <;>
      simp [update_adaptive_threshold, hb, hlen]
  · simp [update_adaptive_threshold, hb]

/-- C4: on every tick after the first, the elbow-linked filter first updates
the adaptive threshold from the elbow delta; if the absolute elbow delta
exceeds the (updated) threshold the wrist output is the blend
`(1-strength)*value + strength*prev_output`; otherwise a wrist value inside
the deadzone is zeroed exactly; otherwise the value passes through; the
stored previous elbow value and previous output are updated after the
decision, and the filtered-frame counter counts the blend case. -/
theorem elbow_tick_semantics (sqrtFn : ℚ → ℚ)
    (cfg : TeleoperateElbowFilterConfig) (t pe pw : ℚ) (hist : List ℚ)
    (tf ff : ℕ) (e w : ℚ) :
    elbow_apply_filter sqrtFn cfg
        ⟨t, Option.some pe, Option.some pw, hist, tf, ff⟩ (ewFrame e w) =
      (let st1 := update_adaptive_threshold sqrtFn cfg.adaptive_threshold
          ⟨t, Option.some pe, Option.some pw, hist, tf + 1, ff⟩ |e - pe|
       let out := if |e - pe| > st1.elbow_threshold then
           (1 - cfg.filter_strength) * w + cfg.filter_strength * pw
         else if |w| < cfg.wrist_deadzone then 0 else w
       (ewFrame e out,
        { st1 with
            prev_elbow_value := Option.some e
            prev_wrist_value := Option.some out
            filtered_frames := if |e - pe| > st1.elbow_threshold then
                st1.filtered_frames + 1 else st1.filtered_frames })) := by
  have hpres := update_adaptive_preserves sqrtFn cfg.adaptive_threshold
    ⟨t, Option.some pe, Option.some pw, hist, tf + 1, ff⟩ |e - pe|
  simp only [elbow_apply_filter, lookup_ewFrame_elbow, lookup_ewFrame_wrist]
  rw [hpres.1]
  split_ifs with h1 h2 <;>
    simp [setAxis_ewFrame, lookup_ewFrame_wrist]

/-! ### C3: adaptive-threshold invariants -/

theorem update_adaptive_false (sqrtFn : ℚ → ℚ) (st : ElbowFlexFilterState)
    (ch : ℚ) : update_adaptive_threshold sqrtFn false st ch = st := by
  simp [update_adaptive_threshold]

theorem elbow_step_threshold_const (sqrtFn : ℚ → ℚ)
    (cfg : TeleoperateElbowFilterConfig) (st : ElbowFlexFilterState)
    (a : AxisFrame) (hna : cfg.adaptive_threshold = false) :
    (elbow_apply_filter sqrtFn cfg st a).2.elbow_threshold =
      st.elbow_threshold := by
  cases he : lookupAxis a elbow_key with
  | none => rw [elbow_apply_skips_missing sqrtFn cfg st a (Or.inl he)]
  | some e =>
    cases hw : lookupAxis a wrist_roll_key with
    | none => rw [elbow_apply_skips_missing sqrtFn cfg st a (Or.inr hw)]
    | some w =>
      simp only [elbow_apply_filter, he, hw]
      cases hpe : st.prev_elbow_value with
      | none => simp [hpe]
      | some pe =>
        simp only [hpe, hna, update_adaptive_false]
        split_ifs <;> simp

theorem run_elbow_threshold_const (sqrtFn : ℚ → ℚ)
    (cfg : TeleoperateElbowFilterConfig)
    (hna : cfg.adaptive_threshold = false) :
    ∀ (frames : List AxisFrame) (st : ElbowFlexFilterState),
      (run_elbow_filter sqrtFn cfg st frames).2.elbow_threshold =
        st.elbow_threshold := by
  intro frames
  induction frames with
  | nil => intro st; rfl
  | cons a rest ih =>
    intro st
    simp only [run_elbow_filter]
    rw [ih]
    exact elbow_step_threshold_const sqrtFn cfg st a hna

/-- C3: with `adaptive_threshold = false` the elbow threshold never changes
across any sequence of ticks; with the adaptive mode on, the threshold is
unchanged while the delta history (after the push of the current delta)
holds fewer than 10 entries, and once it holds 10 or more entries the
threshold becomes `0.9*threshold + 0.1*(mean(history) + 1.5*std(history))`
on each update. -/
theorem adaptive_threshold_invariants :
    (∀ (sqrtFn : ℚ → ℚ) (st : ElbowFlexFilterState) (ch : ℚ),
      update_adaptive_threshold sqrtFn false st ch = st) ∧
    (∀ (sqrtFn : ℚ → ℚ) (cfg : TeleoperateElbowFilterConfig)
        (frames : List AxisFrame) (st : ElbowFlexFilterState),
      cfg.adaptive_threshold = false →
      (run_elbow_filter sqrtFn cfg st frames).2.elbow_threshold =
        st.elbow_threshold) ∧
    (∀ (sqrtFn : ℚ → ℚ) (st : ElbowFlexFilterState) (ch : ℚ),
      (ma_push max_history_size st.elbow_changes_history ch).length < 10 →
      (update_adaptive_threshold sqrtFn true st ch).elbow_threshold =
        st.elbow_threshold) ∧
    (∀ (sqrtFn : ℚ → ℚ) (st : ElbowFlexFilterState) (ch : ℚ),
      10 ≤ (ma_push max_history_size st.elbow_changes_history ch).length →
      (update_adaptive_threshold sqrtFn true st ch).elbow_threshold =
        (9 / 10) * st.elbow_threshold +
          (1 / 10) * (listMean
              (ma_push max_history_size st.elbow_changes_history ch) +
            (3 / 2) * listStd sqrtFn
              (ma_push max_history_size st.elbow_changes_history ch))) := by
  refine ⟨update_adaptive_false,
    fun sqrtFn cfg frames st h =>
      run_elbow_threshold_const sqrtFn cfg h frames st, ?_, ?_⟩
  · intro sqrtFn st ch h
    simp [update_adaptive_threshold, h.not_le]
  · intro sqrtFn st ch h
    simp [update_adaptive_threshold, h]

/-- Witness for C3: a non-adaptive run keeps the threshold at `2`; with a
post-push history of 4 entries the threshold stays `2`; with a post-push
history of 10 entries the smoothing formula applies. -/
theorem adaptive_threshold_invariants_witness :
    (run_elbow_filter (fun q => q) ⟨5, 4 / 5, false⟩
        ⟨2, Option.none, Option.none, [], 0, 0⟩
        [ewFrame 1 2]).2.elbow_threshold = 2 ∧
    (update_adaptive_threshold (fun q => q) true
        ⟨2, Option.none, Option.none, [1, 1, 1], 0, 0⟩ 1).elbow_threshold =
      2 ∧
    (update_adaptive_threshold (fun q => q) true
        ⟨2, Option.none, Option.none, List.replicate 9 0, 0, 0⟩
        1).elbow_threshold =
      (9 / 10) * 2 +
        (1 / 10) * (listMean (ma_push max_history_size
            (List.replicate 9 0) 1) +
          (3 / 2) * listStd (fun q => q)
            (ma_push max_history_size (List.replicate 9 0) 1)) := by
  refine ⟨?_, ?_, ?_⟩
  · exact adaptive_threshold_invariants.2.1 (fun q => q) ⟨5, 4 / 5, false⟩
      [ewFrame 1 2] ⟨2, Option.none, Option.none, [], 0, 0⟩ rfl
  · exact adaptive_threshold_invariants.2.2.1 (fun q => q)
      ⟨2, Option.none, Option.none, [1, 1, 1], 0, 0⟩ 1 (by decide)
  · exact adaptive_threshold_invariants.2.2.2 (fun q => q)
      ⟨2, Option.none, Option.none, List.replicate 9 0, 0, 0⟩ 1 (by decide)

/-! ### C5: the moving-average stage -/

@[simp] theorem lookup_mkWristFrame_gripper (w : ℚ) :
    lookupAxis (mkWristFrame w) gripper_key = Option.none := by
  simp [mkWristFrame, lookupAxis, Ne.symm gripper_key_ne_wrist]

theorem ma_push_no_evict (win : ℕ) (h : List ℚ) (v : ℚ)
    (hlen : h.length + 1 ≤ win) : ma_push win h v = h ++ [v] := by
  have hc : ¬ (win < (h ++ [v]).length) := by
    simp
    omega
  simp [ma_push, hc]
  exact fun hcon => absurd hcon (by omega)

theorem ma_push_replicate (win m : ℕ) (v : ℚ) (hm : m ≤ win) :
    ma_push win (List.replicate m v) v =
      List.replicate (min (m + 1) win) v := by
  rcases Nat.lt_or_ge m win with hlt | hge
  · rw [ma_push_no_evict win (List.replicate m v) v (by simp; omega)]
    rw [show min (m + 1) win = m + 1 by omega]
    rw [← List.replicate_succ' ]
  · have hm' : m = win := le_antisymm hm hge
    subst hm'
    rw [show min (m + 1) m = m by omega]
    simp [ma_push, ← List.replicate_succ']

theorem ma_feed_append_le (win : ℕ) :
    ∀ (xs h : List ℚ), h.length + xs.length ≤ win →
      ma_feed win h xs = h ++ xs := by
  intro xs
  induction xs with
  | nil => intro h _; simp [ma_feed]
  | cons x rest ih =>
    intro h hlen
    simp only [List.length_cons] at hlen
    show ma_feed win (ma_push win h x) rest = h ++ x :: rest
    rw [ma_push_no_evict win h x (by omega)]
    rw [ih (h ++ [x]) (by simp; omega)]
    simp

theorem ma_feed_replicate (win : ℕ) (v : ℚ) :
    ∀ (n m : ℕ), m ≤ win →
      ma_feed win (List.replicate m v) (List.replicate n v) =
        List.replicate (min (m + n) win) v := by
  intro n
  induction n with
  | zero =>
    intro m hm
    rw [show min (m + 0) win = m by omega]
    rfl
  | succ k ih =>
    intro m hm
    rw [List.replicate_succ]
    show ma_feed win (ma_push win (List.replicate m v) v)
      (List.replicate k v) = List.replicate (min (m + (k + 1)) win) v
    rw [ma_push_replicate win m v hm]
    rw [ih (min (m + 1) win) (by omega)]
    rw [show min (min (m + 1) win + k) win = min (m + (k + 1)) win by omega]

theorem ma_push_length (win : ℕ) (h : List ℚ) (v : ℚ)
    (hl : h.length ≤ win) :
    (ma_push win h v).length = min (h.length + 1) win := by
  rw [show ma_push win h v =
    if win < (h ++ [v]).length then (h ++ [v]).tail else h ++ [v] from rfl]
  split_ifs with hc <;> simp at hc ⊢ <;> omega

theorem ma_feed_length (win : ℕ) :
    ∀ (xs h : List ℚ), h.length ≤ win →
      (ma_feed win h xs).length = min (h.length + xs.length) win := by
  intro xs
  induction xs with
  | nil => intro h hl; simp [ma_feed]; omega
  | cons x rest ih =>
    intro h hl
    show (ma_feed win (ma_push win h x) rest).length =
      min (h.length + (x :: rest).length) win
    rw [ih (ma_push win h x) (by rw [ma_push_length win h x hl]; omega)]
    rw [ma_push_length win h x hl]
    simp
    omega

theorem ma_tick (dz gt : ℚ) (win : ℕ) (st : WristRollFilterState) (v : ℚ) :
    apply_filter ⟨FilterType.moving_average, dz, win, gt⟩ st
        (mkWristFrame v) =
      (mkWristFrame (listMean (ma_push win st.wrist_roll_history v)),
        ⟨ma_push win st.wrist_roll_history v, st.prev_gripper_value,
          Option.some (listMean (ma_push win st.wrist_roll_history v))⟩) := by
  simp [apply_filter]

theorem run_ma_hist (dz gt : ℚ) (win : ℕ) :
    ∀ (xs : List ℚ) (st : WristRollFilterState),
      (run_wrist_filter ⟨FilterType.moving_average, dz, win, gt⟩ st
          (xs.map mkWristFrame)).2.wrist_roll_history =
        ma_feed win st.wrist_roll_history xs := by
  intro xs
  induction xs with
  | nil => intro st; rfl
  | cons x rest ih =>
    intro st
    show (run_wrist_filter ⟨FilterType.moving_average, dz, win, gt⟩
        (apply_filter ⟨FilterType.moving_average, dz, win, gt⟩ st
          (mkWristFrame x)).2
        (rest.map mkWristFrame)).2.wrist_roll_history =
      ma_feed win st.wrist_roll_history (x :: rest)
    rw [ma_tick, ih]
    rfl

theorem run_ma_prev (dz gt : ℚ) (win : ℕ) :
    ∀ (xs : List ℚ) (st : WristRollFilterState), xs ≠ [] →
      (run_wrist_filter ⟨FilterType.moving_average, dz, win, gt⟩ st
          (xs.map mkWristFrame)).2.prev_wrist_roll_value =
        Option.some (listMean (ma_feed win st.wrist_roll_history xs)) := by
  intro xs
  induction xs with
  | nil => intro st h; exact absurd rfl h
  | cons x rest ih =>
    intro st _
    cases rest with
    | nil =>
      show (run_wrist_filter ⟨FilterType.moving_average, dz, win, gt⟩
          (apply_filter ⟨FilterType.moving_average, dz, win, gt⟩ st
            (mkWristFrame x)).2 []).2.prev_wrist_roll_value =
        Option.some (listMean (ma_feed win st.wrist_roll_history [x]))
      rw [ma_tick]
      rfl
    | cons y ys =>
      show (run_wrist_filter ⟨FilterType.moving_average, dz, win, gt⟩
          (apply_filter ⟨FilterType.moving_average, dz, win, gt⟩ st
            (mkWristFrame x)).2
          ((y :: ys).map mkWristFrame)).2.prev_wrist_roll_value =
        Option.some (listMean (ma_feed win st.wrist_roll_history
          (x :: y :: ys)))
      rw [ma_tick]
      rw [ih _ (List.cons_ne_nil y ys)]
      rfl

/-- C5: the moving-average stage pushes each input onto a FIFO bounded to
`window` entries (evicting the oldest when full) and outputs the arithmetic
mean of the FIFO contents; after feeding `k ≤ window` values the output is
the mean over exactly those `k` values, and after feeding a constant `v` for
`window` or more ticks the output is exactly `v`. -/
theorem moving_average_semantics :
    (∀ (dz gt : ℚ) (win : ℕ) (st : WristRollFilterState) (v : ℚ),
      apply_filter ⟨FilterType.moving_average, dz, win, gt⟩ st
          (mkWristFrame v) =
        (mkWristFrame (listMean (ma_push win st.wrist_roll_history v)),
          ⟨ma_push win st.wrist_roll_history v, st.prev_gripper_value,
            Option.some (listMean (ma_push win st.wrist_roll_history v))⟩)) ∧
    (∀ (win : ℕ) (xs : List ℚ),
      (ma_feed win [] xs).length = min xs.length win) ∧
    (∀ (dz gt : ℚ) (win : ℕ) (xs : List ℚ),
      (run_wrist_filter ⟨FilterType.moving_average, dz, win, gt⟩
          initWristState (xs.map mkWristFrame)).2.wrist_roll_history =
        ma_feed win [] xs) ∧
    (∀ (dz gt : ℚ) (win : ℕ) (xs : List ℚ), xs ≠ [] → xs.length ≤ win →
      (run_wrist_filter ⟨FilterType.moving_average, dz, win, gt⟩
          initWristState
          (xs.map mkWristFrame)).2.prev_wrist_roll_value =
        Option.some (xs.sum / (xs.length : ℚ))) ∧
    (∀ (dz gt v : ℚ) (win n : ℕ), 1 ≤ win → win ≤ n →
      (run_wrist_filter ⟨FilterType.moving_average, dz, win, gt⟩
          initWristState
          ((List.replicate n v).map mkWristFrame)).2.prev_wrist_roll_value =
        Option.some v) := by
  refine ⟨ma_tick, ?_, ?_, ?_, ?_⟩
  · intro win xs
    have h := ma_feed_length win xs [] (by simp)
    simpa using h
  · intro dz gt win xs
    exact run_ma_hist dz gt win xs initWristState
  · intro dz gt win xs hne hlen
    rw [run_ma_prev dz gt win xs initWristState hne]
    rw [show initWristState.wrist_roll_history = ([] : List ℚ) from rfl]
    rw [ma_feed_append_le win xs [] (by simpa using hlen)]
    rfl
  · intro dz gt v win n h1 hn
    have hne : List.replicate n v ≠ [] := by
      intro hcon
      have hlen := congrArg List.length hcon
      simp at hlen
      omega
    rw [run_ma_prev dz gt win _ initWristState hne]
    rw [show initWristState.wrist_roll_history = ([] : List ℚ) from rfl]
    have hfeed : ma_feed win ([] : List ℚ) (List.replicate n v) =
        List.replicate win v := by
      have h := ma_feed_replicate win v n 0 (by omega)
      rw [show min (0 + n) win = win by omega] at h
      simpa using h
    rw [hfeed]
    have hmean : listMean (List.replicate win v) = v := by
      have hw : ((win : ℕ) : ℚ) ≠ 0 := Nat.cast_ne_zero.mpr (by omega)
      simp [listMean, List.sum_replicate, nsmul_eq_mul]
      field_simp
    rw [hmean]

/-- Witness for C5: the mean of the two values fed so far, and the recovery
of a constant input `7` after five ticks with window `3`. -/
theorem moving_average_semantics_witness :
    (run_wrist_filter ⟨FilterType.moving_average, 20, 10, 5⟩ initWristState
        (([4, 8] : List ℚ).map mkWristFrame)).2.prev_wrist_roll_value =
      Option.some (([4, 8] : List ℚ).sum / ((([4, 8] : List ℚ).length : ℕ) : ℚ)) ∧
    (run_wrist_filter ⟨FilterType.moving_average, 20, 3, 5⟩ initWristState
        ((List.replicate 5 (7 : ℚ)).map mkWristFrame)).2.prev_wrist_roll_value =
      Option.some 7 := by
  constructor
  · exact moving_average_semantics.2.2.2.1 20 5 10 [4, 8]
      (List.cons_ne_nil 4 [8]) (by decide)
  · exact moving_average_semantics.2.2.2.2 20 5 7 3 5 (by decide) (by decide)
